import Mathlib

/-!
# Verification of the loudness sampling and windowed aggregation logic

Shallow embedding of the aggregation logic of the React-Native dB-graph
components:

* `src/components/DbGraph.jsx` (the `VoiceDBGraph` component using
  `react-native-audio-record`), embedded as `pushJsx`, `startAudioJsx`,
  `stopAudioJsx`, `clearData`;
* `src/unnamed/part_001` (the `VoiceDBGraph` variant driven by a 50 ms
  interval), embedded as `push001`, `startAudio001`, `stopAudio001`;
* `src/unnamed/part_002` (the `SimpleDBGraph` variant), whose sliding
  window update is embedded as `push002`;
* `src/App.js` (the `SoundLevel` meter), embedded as
  `soundLevelToPercentage` and `onNewFrame`.

Times and levels are embedded as rationals; the two logarithmic dB
conversions are embedded over the reals using `Real.logb`.
-/

namespace DbGraph

/-- A waveform point as stored in `waveformData`: `x` is the sample time in
seconds since session start, `y` the normalized display level.  (The JS
objects carry an extra `timestamp` field in some variants; it is never read
by the aggregation logic and is omitted.) -/
structure Sample where
  x : ℚ
  y : ℚ
  deriving DecidableEq, Repr

/-- The aggregation-relevant component state shared by the `DbGraph.jsx`
and `part_001` variants: `waveformData`, `running`, `time`, `averageDB`,
`currentDB`, `recordingDuration`, the `activeSpeechTimeRef` ref and the
`startTimeRef` ref.  `autoStopScheduled` models whether the `setTimeout`
auto-stop handle (`timeoutRef`) is currently set.  UI-only state
(`darkTheme`, `isPaused`, animation values) is omitted. -/
structure GraphState where
  waveformData : List Sample
  running : Bool
  time : ℚ
  averageDB : ℚ
  currentDB : ℚ
  recordingDuration : ℚ
  activeSpeechTime : ℚ
  startTime : ℚ
  autoStopScheduled : Bool
  deriving DecidableEq, Repr

/-- The component's initial state (all `useState`/`useRef` initializers). -/
def initialState : GraphState :=
  { waveformData := []
    running := false
    time := 0
    averageDB := 0
    currentDB := 0
    recordingDuration := 0
    activeSpeechTime := 0
    startTime := 0
    autoStopScheduled := false }

/-- `DbGraph.jsx`, `AudioRecord.on('data')` handler: the sliding-window
cutoff `windowStart = Math.max(0, currentTime - (duration || 30))`. -/
def windowStartJsx (duration t : ℚ) : ℚ :=
  max 0 (t - (if duration = 0 then 30 else duration))

/-- `DbGraph.jsx` lines 74-119, the `AudioRecord.on('data')` handler, as a
function of the already-normalized level `y` and the sample time `t`
(`currentTime` in the source).  Appends the new point, keeps the sliding
window `p.x >= windowStart`, recomputes `averageDB` over the points with
`y >= 8` (leaving it unchanged when there are none), and adds the fixed
`0.1` tick to `activeSpeechTimeRef` when `y > 12`. -/
def pushJsx (duration : ℚ) (s : GraphState) (t y : ℚ) : GraphState :=
  let updated := s.waveformData ++ [(⟨t, y⟩ : Sample)]
  let filteredForDisplay := updated.filter fun p => decide (windowStartJsx duration t ≤ p.x)
  let activePoints := filteredForDisplay.filter fun p => decide ((8:ℚ) ≤ p.y)
  let newAvg : ℚ :=
    if 0 < activePoints.length then
      (activePoints.map Sample.y).sum / (activePoints.length : ℚ)
    else s.averageDB
  let newSpeech :=
    if 12 < y then s.activeSpeechTime + 1/10 else s.activeSpeechTime
  { s with
      currentDB := y
      waveformData := filteredForDisplay
      averageDB := newAvg
      activeSpeechTime := newSpeech
      time := t }

/-- `part_001` lines 236-293, the body of the recording interval that
processes one sample, as a function of the normalized level `y`
(`normalizedDB`) and the elapsed time `t` (`currentElapsedTime`).  The
window cutoff is `p.x >= currentElapsedTime - duration` (no clamp at 0);
`averageDB` is recomputed over the points with `y < 1 || y > 10` and reset
to `0` when there are none; `activeSpeechTimeRef` gains the fixed `0.05`
tick when `y > 10`.  (The 200 ms-throttled `setCurrentDB` update is
UI-only and not modelled.) -/
def push001 (duration : ℚ) (s : GraphState) (t y : ℚ) : GraphState :=
  let updated := (s.waveformData ++ [(⟨t, y⟩ : Sample)]).filter fun p => decide (t - duration ≤ p.x)
  let validPoints := updated.filter fun p => decide (p.y < 1 ∨ 10 < p.y)
  let newAvg : ℚ :=
    if 0 < validPoints.length then
      (validPoints.map Sample.y).sum / (validPoints.length : ℚ)
    else 0
  let newSpeech :=
    if 10 < y then s.activeSpeechTime + 1/20 else s.activeSpeechTime
  { s with
      waveformData := updated
      averageDB := newAvg
      activeSpeechTime := newSpeech
      time := t }

/-- `part_002` lines 258-274, the `setWaveformData` updater of
`SimpleDBGraph`'s recording interval: append the new point and keep
`point.x >= Math.max(0, currentTime - timeWindow)` where `timeWindow` is
the `duration` prop. -/
def push002 (duration : ℚ) (l : List Sample) (t y : ℚ) : List Sample :=
  (l ++ [(⟨t, y⟩ : Sample)]).filter fun p => decide (max 0 (t - duration) ≤ p.x)

/-- `DbGraph.jsx` lines 171-226, `startAudio`, on the success path (the
permission prompt and the native recorder are external collaborators):
resets `time`, `recordingDuration`, `activeSpeechTimeRef` and
`waveformData`, records the wall-clock start `tNow`, sets `running`, and
schedules the auto-stop timeout only when `duration && duration > 0`.
Note that `averageDB` and `currentDB` are *not* reset. -/
def startAudioJsx (duration tNow : ℚ) (s : GraphState) : GraphState :=
  { s with
      time := 0
      recordingDuration := 0
      activeSpeechTime := 0
      waveformData := []
      startTime := tNow
      running := true
      autoStopScheduled := decide (duration ≠ 0 ∧ 0 < duration) }

/-- `part_001` lines 109-144, `startAudio`, success path: same resets
(without `setWaveformData([])`, which this variant omits — its window is
rebuilt by the interval), and the auto-stop timeout is scheduled only when
`duration === 5`. -/
def startAudio001 (duration tNow : ℚ) (s : GraphState) : GraphState :=
  { s with
      time := 0
      recordingDuration := 0
      activeSpeechTime := 0
      startTime := tNow
      running := true
      autoStopScheduled := decide (duration = 5) }

/-- `DbGraph.jsx` lines 228-271, `stopAudio`, success path, called at
wall-clock time `tNow`: clears `running` and the timeout, sets
`recordingDuration`, and computes the returned `finalAverageDB`:
`averageDB`, overridden to `0` (also writing `setAverageDB(0)`) when
`activeSpeechTimeRef.current < 1`.  Returns the final average together
with the post-state. -/
def stopAudioJsx (tNow : ℚ) (s : GraphState) : ℚ × GraphState :=
  let finalAverageDB := if s.activeSpeechTime < 1 then 0 else s.averageDB
  (finalAverageDB,
    { s with
        running := false
        autoStopScheduled := false
        recordingDuration := tNow - s.startTime
        averageDB := finalAverageDB })

/-- `part_001` lines 146-200, `stopAudio`: identical aggregation logic to
the `DbGraph.jsx` variant (clear running and timeout, set
`recordingDuration`, apply the `< 1` second minimum-activity override to
the returned `finalAverageDB`). -/
def stopAudio001 (tNow : ℚ) (s : GraphState) : ℚ × GraphState :=
  let finalAverageDB := if s.activeSpeechTime < 1 then 0 else s.averageDB
  (finalAverageDB,
    { s with
        running := false
        autoStopScheduled := false
        recordingDuration := tNow - s.startTime
        averageDB := finalAverageDB })

/-- `DbGraph.jsx` lines 273-289 and `part_001` lines 202-216, `clearData`
(the two bodies agree on every modelled field): empties the window, zeroes
`time`, `recordingDuration`, `activeSpeechTimeRef`, `startTimeRef`,
`averageDB`, `currentDB`, and clears the auto-stop timeout.  `running` is
not touched. -/
def clearData (s : GraphState) : GraphState :=
  { s with
      waveformData := []
      time := 0
      recordingDuration := 0
      activeSpeechTime := 0
      startTime := 0
      averageDB := 0
      currentDB := 0
      autoStopScheduled := false }

/-- The observable snapshot `{currentLevel, runningAverage,
activeDurationSeconds, elapsedSeconds, sampleCount}` of a component state:
`currentDB`, `averageDB`, `activeSpeechTimeRef.current`, `time`, and
`waveformData.length` (the readouts rendered by the component and exposed
through `useImperativeHandle`). -/
def snapshot (s : GraphState) : ℚ × ℚ × ℚ × ℚ × ℕ :=
  (s.currentDB, s.averageDB, s.activeSpeechTime, s.time, s.waveformData.length)

/-- Fold a trace of samples through the `DbGraph.jsx` data handler. -/
def runPushesJsx (duration : ℚ) (s : GraphState) (trace : List Sample) : GraphState :=
  trace.foldl (fun st p => pushJsx duration st p.x p.y) s

/-- Fold a trace of samples through the `part_001` interval body. -/
def runPushes001 (duration : ℚ) (s : GraphState) (trace : List Sample) : GraphState :=
  trace.foldl (fun st p => push001 duration st p.x p.y) s

/-- Fold a trace of samples through the `part_002` window updater. -/
def runPushes002 (duration : ℚ) (l : List Sample) (trace : List Sample) : List Sample :=
  trace.foldl (fun acc p => push002 duration acc p.x p.y) l

end DbGraph

namespace DbGraph

/-- JavaScript `Math.round` on the rationals: round half up,
`Math.round(v) = Math.floor(v + 0.5)` (the two agree on every value this
code ever rounds, which is nonnegative). -/
def jsRound (q : ℚ) : ℤ := ⌊q + 1/2⌋

/-- `src/App.js` lines 85-93, `soundLevelToPercentage`: `0` for
`soundLevel <= 0`, otherwise
`Math.round(Math.min(100, Math.max(0, soundLevel / 80 * 100)))`. -/
def soundLevelToPercentage (soundLevel : ℚ) : ℤ :=
  if soundLevel ≤ 0 then 0
  else jsRound (min 100 (max 0 (soundLevel / 80 * 100)))

/-- The aggregation-relevant state of the `App.js` meter: the
`decibelHistory` array of percentage readings and the `averageDecibels`
display value. -/
structure MeterState where
  decibelHistory : List ℤ
  averageDecibels : ℤ
  deriving DecidableEq, Repr

/-- `src/App.js` lines 111-134, the `SoundLevel.onNewFrame` handler body:
convert the frame's `value` to a percentage, append it to the history,
`shift()` the front element once the length exceeds 50, and store the
rounded arithmetic mean of the retained history. -/
def onNewFrame (st : MeterState) (soundLevel : ℚ) : MeterState :=
  let percentage := soundLevelToPercentage soundLevel
  let appended := st.decibelHistory ++ [percentage]
  let newHistory := if 50 < appended.length then appended.tail else appended
  let average := jsRound ((newHistory.sum : ℚ) / (newHistory.length : ℚ))
  { decibelHistory := newHistory, averageDecibels := average }

/-- Fold a list of incoming frame values through the `onNewFrame` handler,
starting from the state `startRecording` establishes
(`setDecibelHistory([])`). -/
def runFrames (frames : List ℚ) : MeterState :=
  frames.foldl onNewFrame ⟨[], 0⟩

/-- `DbGraph.jsx` lines 77-79: the RMS-to-display-level conversion
`normalizedDB = Math.max(0, Math.min(100, 20*Math.log10(rms/32767) + 90))`.
For `rms = 0` JavaScript computes `Math.log10(0) = -Infinity`, which the
two clamps map to `0`; the `rms ≤ 0` branch embeds that limit (a negative
`rms` is unreachable: `calculateRMS` returns a square root). -/
noncomputable def normalizeJsx (rms : ℝ) : ℝ :=
  if rms ≤ 0 then 0
  else max 0 (min 100 (20 * Real.logb 10 (rms / 32767) + 90))

/-- `part_001` lines 223-234, the tail of `processAudioData`:
`dB = 20*Math.log10(rms || 0.0001)` and
`normalizedDB = Math.max(0, dB + 100 - dbOffset)` with `dbOffset = 50`.
The `rms || 0.0001` fallback (taken when `rms` is `0`) is embedded by the
`if`.  Note there is no upper clamp. -/
noncomputable def normalize001 (rms : ℝ) : ℝ :=
  max 0 (20 * Real.logb 10 (if rms = 0 then 1/10000 else rms) + 100 - 50)

end DbGraph

namespace DbGraph

/-- C1: in both `stopAudio` implementations (`DbGraph.jsx` and
`part_001`), if the accumulated active-speech time is strictly below one
second when `stopAudio` runs, the returned final average is exactly `0`
whatever the window and running average hold; otherwise the running
average is returned unchanged. -/
theorem stop_min_activity_override (tNow : ℚ) (s : GraphState) :
    ((s.activeSpeechTime < 1 → (stopAudioJsx tNow s).1 = 0) ∧
      (1 ≤ s.activeSpeechTime → (stopAudioJsx tNow s).1 = s.averageDB)) ∧
    ((s.activeSpeechTime < 1 → (stopAudio001 tNow s).1 = 0) ∧
      (1 ≤ s.activeSpeechTime → (stopAudio001 tNow s).1 = s.averageDB)) := by
  refine ⟨⟨fun h => ?_, fun h => ?_⟩, ⟨fun h => ?_, fun h => ?_⟩⟩
  · simp [stopAudioJsx, h]
  · simp [stopAudioJsx, not_lt.mpr h]
  · simp [stopAudio001, h]
  · simp [stopAudio001, not_lt.mpr h]

/-- Witness for `stop_min_activity_override`: a session stopped with 0.5 s
of active speech reports `0` even though the running average is `42`, and
one stopped with 2 s of active speech reports the `42` unchanged. -/
theorem stop_min_activity_override_witness :
    (stopAudioJsx 3 { initialState with activeSpeechTime := 1/2, averageDB := 42 }).1 = 0 ∧
    (stopAudio001 3 { initialState with activeSpeechTime := 2, averageDB := 42 }).1 = 42 :=
  ⟨(stop_min_activity_override 3
      { initialState with activeSpeechTime := 1/2, averageDB := 42 }).1.1 (by norm_num),
   (stop_min_activity_override 3
      { initialState with activeSpeechTime := 2, averageDB := 42 }).2.2 (by norm_num)⟩

/-- C6: `clearData` (identical in `DbGraph.jsx` and `part_001` on every
modelled field) zeroes the window and every accumulated datum — the
snapshot read immediately afterwards is all zeros — while leaving the
`running` flag exactly as it was, so an active session keeps recording. -/
theorem clear_resets_preserves_running (s : GraphState) :
    snapshot (clearData s) = (0, 0, 0, 0, 0) ∧
    (clearData s).running = s.running := by
  simp [snapshot, clearData]

/-- C7: starting a session (either variant) and stopping it without any
sample ever being pushed yields final average `0` (via the minimum-activity
override, since no speech time accumulated), active speech time `0`, and
elapsed sample time `0`; both functions are total, so no error arises. -/
theorem stop_empty_session (d tStart tStop : ℚ) (s s' : GraphState) :
    ((stopAudioJsx tStop (startAudioJsx d tStart s)).1 = 0 ∧
      (stopAudioJsx tStop (startAudioJsx d tStart s)).2.activeSpeechTime = 0 ∧
      (stopAudioJsx tStop (startAudioJsx d tStart s)).2.time = 0) ∧
    ((stopAudio001 tStop (startAudio001 d tStart s')).1 = 0 ∧
      (stopAudio001 tStop (startAudio001 d tStart s')).2.activeSpeechTime = 0 ∧
      (stopAudio001 tStop (startAudio001 d tStart s')).2.time = 0) := by
  simp [stopAudioJsx, stopAudio001, startAudioJsx, startAudio001]

/-- C8 counterexample: with the window at `[⟨2, 50⟩]` and the last sample
time `2`, pushing the out-of-order sample `(t = 1, y = 60)` through the
`DbGraph.jsx` data handler is not rejected: the sample is appended and the
window becomes `[⟨2, 50⟩, ⟨1, 60⟩]`, so the Window *is* altered and no
`OutOfOrderSampleError` exists. -/
theorem out_of_order_cex :
    ((1 : ℚ) < ({ initialState with waveformData := [⟨2, 50⟩], time := 2 } : GraphState).time) ∧
    (pushJsx 5 { initialState with waveformData := [⟨2, 50⟩], time := 2 } 1 60).waveformData
      = [⟨2, 50⟩, ⟨1, 60⟩] := by
  constructor
  · norm_num
  · norm_num [pushJsx, windowStartJsx, List.filter]

/-- C8 amended: neither data handler performs any timestamp-monotonicity
check.  Every pushed sample with nonnegative time — including one whose
time is below the previous sample's — is accepted into the window, and the
session continues (`running` is untouched). -/
theorem out_of_order_accepted (d : ℚ) (s : GraphState) (t y : ℚ)
    (hd : 0 < d) (ht : 0 ≤ t) :
    (⟨t, y⟩ : Sample) ∈ (pushJsx d s t y).waveformData ∧
    (⟨t, y⟩ : Sample) ∈ (push001 d s t y).waveformData ∧
    (pushJsx d s t y).running = s.running ∧
    (push001 d s t y).running = s.running := by
  have hd0 : d ≠ 0 := ne_of_gt hd
  refine ⟨?_, ?_, rfl, rfl⟩
  · simp only [pushJsx, List.mem_filter, decide_eq_true_eq, windowStartJsx, hd0, if_false]
    exact ⟨List.mem_append_right _ (List.mem_singleton_self _),
      max_le ht (by linarith)⟩
  · simp only [push001, List.mem_filter, decide_eq_true_eq]
    exact ⟨List.mem_append_right _ (List.mem_singleton_self _), by linarith⟩

/-- Witness for `out_of_order_accepted`: the out-of-order sample of
`out_of_order_cex`'s scenario is a member of the resulting window in both
variants. -/
theorem out_of_order_accepted_witness :
    (⟨1, 60⟩ : Sample) ∈
      (pushJsx 5 { initialState with waveformData := [⟨2, 50⟩], time := 2 } 1 60).waveformData ∧
    (⟨1, 60⟩ : Sample) ∈
      (push001 5 { initialState with waveformData := [⟨2, 50⟩], time := 2 } 1 60).waveformData :=
  ⟨(out_of_order_accepted 5 _ 1 60 (by norm_num) (by norm_num)).1,
   (out_of_order_accepted 5 _ 1 60 (by norm_num) (by norm_num)).2.1⟩

/-- C9 counterexample: calling `startAudio` with the non-positive window
duration `-1` from the pristine idle state does not fail and does not
leave the session in its prior state: it activates the session
(`running` flips from `false` to `true`).  No `InvalidConfig` error exists
in the code. -/
theorem start_invalid_config_cex :
    startAudioJsx (-1) 7 initialState ≠ initialState ∧
    (startAudioJsx (-1) 7 initialState).running = true ∧
    initialState.running = false := by
  refine ⟨fun h => ?_, by simp [startAudioJsx], rfl⟩
  have hr := congrArg GraphState.running h
  simp [startAudioJsx, initialState] at hr

/-- C9 amended: `startAudio` validates nothing.  For any `duration ≤ 0`
(either variant) it still resets the accumulated state, records the start
time and activates the session; the only consequence of a non-positive
duration is that no auto-stop timeout is scheduled. -/
theorem start_no_validation (d tNow : ℚ) (s : GraphState) (hd : d ≤ 0) :
    ((startAudioJsx d tNow s).running = true ∧
      (startAudioJsx d tNow s).waveformData = [] ∧
      (startAudioJsx d tNow s).activeSpeechTime = 0 ∧
      (startAudioJsx d tNow s).time = 0 ∧
      (startAudioJsx d tNow s).startTime = tNow ∧
      (startAudioJsx d tNow s).autoStopScheduled = false) ∧
    ((startAudio001 d tNow s).running = true ∧
      (startAudio001 d tNow s).activeSpeechTime = 0 ∧
      (startAudio001 d tNow s).time = 0 ∧
      (startAudio001 d tNow s).startTime = tNow ∧
      (startAudio001 d tNow s).autoStopScheduled = false) := by
  have h1 : ¬(d ≠ 0 ∧ 0 < d) := by rintro ⟨-, h⟩; linarith
  have h2 : d ≠ 5 := by rintro rfl; norm_num at hd
  simp [startAudioJsx, startAudio001, h1, h2]

/-- Witness for `start_no_validation` at the concrete invalid duration
`-1` from the pristine idle state. -/
theorem start_no_validation_witness :
    (startAudioJsx (-1) 7 initialState).running = true ∧
    (startAudio001 (-1) 7 initialState).running = true :=
  ⟨(start_no_validation (-1) 7 initialState (by norm_num)).1.1,
   (start_no_validation (-1) 7 initialState (by norm_num)).2.1⟩

/-- C5 counterexample: two consecutive above-threshold samples at times
`0.5` and `1` (inter-sample delta `0.5`) pushed through the `DbGraph.jsx`
handler grow the active speech time by the fixed `0.1` tick, not by the
`0.5` delta the claim prescribes. -/
theorem active_duration_delta_cex :
    (pushJsx 5 (pushJsx 5 initialState (1/2) 50) 1 50).activeSpeechTime
        - (pushJsx 5 initialState (1/2) 50).activeSpeechTime = 1/10 ∧
    ((1 : ℚ) - 1/2 ≠ 1/10) := by
  constructor
  · norm_num [pushJsx, initialState]
  · norm_num

/-- C5 amended: each handler adds a *fixed* nominal tick to the active
speech time for every sample strictly above its activity threshold —
`0.1` s above `12` in `DbGraph.jsx`, `0.05` s above `10` in `part_001` —
regardless of the actual inter-sample delta; at or below the threshold it
is unchanged; in all cases it never decreases. -/
theorem active_duration_fixed_tick (d : ℚ) (s : GraphState) (t y : ℚ) :
    (12 < y → (pushJsx d s t y).activeSpeechTime = s.activeSpeechTime + 1/10) ∧
    (y ≤ 12 → (pushJsx d s t y).activeSpeechTime = s.activeSpeechTime) ∧
    (10 < y → (push001 d s t y).activeSpeechTime = s.activeSpeechTime + 1/20) ∧
    (y ≤ 10 → (push001 d s t y).activeSpeechTime = s.activeSpeechTime) ∧
    s.activeSpeechTime ≤ (pushJsx d s t y).activeSpeechTime ∧
    s.activeSpeechTime ≤ (push001 d s t y).activeSpeechTime := by
  refine ⟨fun h => ?_, fun h => ?_, fun h => ?_, fun h => ?_, ?_, ?_⟩
  · simp [pushJsx, h]
  · simp [pushJsx, not_lt.mpr h]
  · simp [push001, h]
  · simp [push001, not_lt.mpr h]
  · simp only [pushJsx]; split_ifs <;> linarith
  · simp only [push001]; split_ifs <;> linarith

/-- Witness for `active_duration_fixed_tick`: an above-threshold sample
(`y = 50`) adds exactly `0.1` (resp. `0.05`), and a below-threshold sample
(`y = 3`) leaves the counter untouched. -/
theorem active_duration_fixed_tick_witness :
    (pushJsx 5 initialState 1 50).activeSpeechTime = initialState.activeSpeechTime + 1/10 ∧
    (push001 5 initialState 1 50).activeSpeechTime = initialState.activeSpeechTime + 1/20 ∧
    (pushJsx 5 initialState 1 3).activeSpeechTime = initialState.activeSpeechTime :=
  ⟨(active_duration_fixed_tick 5 initialState 1 50).1 (by norm_num),
   (active_duration_fixed_tick 5 initialState 1 50).2.2.1 (by norm_num),
   (active_duration_fixed_tick 5 initialState 1 3).2.1 (by norm_num)⟩

end DbGraph

namespace DbGraph

/-- C3 counterexample: in the `part_001` variant, with the previous
running average at `7`, pushing a single sample `(t = 1, y = 5)` leaves no
"qualifying" point (its filter keeps only `y < 1 || y > 10`, and `5` is in
the excluded band), and the running average is *reset to `0`* — it neither
keeps the previous value `7` nor equals any mean of above-floor samples
(the only window sample has level `5`). -/
theorem running_average_holds_previous_cex :
    ({ initialState with averageDB := 7 } : GraphState).averageDB = 7 ∧
    (push001 5 { initialState with averageDB := 7 } 1 5).averageDB = 0 ∧
    ((0 : ℚ) ≠ 7) ∧ ((0 : ℚ) ≠ 5) := by
  refine ⟨rfl, ?_, by norm_num, by norm_num⟩
  norm_num [push001, initialState, List.filter]

/-- C3 amended: after each push, in `DbGraph.jsx` the running average
equals the arithmetic mean of the window samples with level `≥ 8` and is
left unchanged when no sample qualifies; in `part_001` the average is the
mean of the window samples with level `< 1` or `> 10` (a band exclusion,
not a silence floor) and is reset to `0` — not held — when no sample
qualifies. -/
theorem running_average_characterization (d : ℚ) (s : GraphState) (t y : ℚ) :
    ((pushJsx d s t y).waveformData.filter (fun p => decide ((8:ℚ) ≤ p.y)) ≠ [] →
      (pushJsx d s t y).averageDB =
        (((pushJsx d s t y).waveformData.filter (fun p => decide ((8:ℚ) ≤ p.y))).map Sample.y).sum /
          (((pushJsx d s t y).waveformData.filter (fun p => decide ((8:ℚ) ≤ p.y))).length : ℚ)) ∧
    ((pushJsx d s t y).waveformData.filter (fun p => decide ((8:ℚ) ≤ p.y)) = [] →
      (pushJsx d s t y).averageDB = s.averageDB) ∧
    ((push001 d s t y).waveformData.filter (fun p => decide (p.y < 1 ∨ 10 < p.y)) ≠ [] →
      (push001 d s t y).averageDB =
        (((push001 d s t y).waveformData.filter (fun p => decide (p.y < 1 ∨ 10 < p.y))).map Sample.y).sum /
          (((push001 d s t y).waveformData.filter (fun p => decide (p.y < 1 ∨ 10 < p.y))).length : ℚ)) ∧
    ((push001 d s t y).waveformData.filter (fun p => decide (p.y < 1 ∨ 10 < p.y)) = [] →
      (push001 d s t y).averageDB = 0) := by
  refine ⟨fun h => ?_, fun h => ?_, fun h => ?_, fun h => ?_⟩
  · simp only [pushJsx] at h ⊢
    rw [if_pos (List.length_pos.mpr h)]
  · simp only [pushJsx] at h ⊢
    rw [if_neg (by rw [h]; simp)]
  · simp only [push001] at h ⊢
    rw [if_pos (List.length_pos.mpr h)]
  · simp only [push001] at h ⊢
    rw [if_neg (by rw [h]; simp)]

/-- Witness for `running_average_characterization`: pushing a single
qualifying sample `(1, 50)` into a fresh `DbGraph.jsx` state makes the
average `50` (mean of the one qualifying sample), and the `part_001` case
of `running_average_holds_previous_cex`'s scenario yields `0`. -/
theorem running_average_characterization_witness :
    (pushJsx 5 initialState 1 50).averageDB = 50 ∧
    (push001 5 { initialState with averageDB := 9 } 1 5).averageDB = 0 := by
  constructor
  · have h := (running_average_characterization 5 initialState 1 50).1
      (by norm_num [pushJsx, windowStartJsx, initialState, List.filter])
    rw [h]
    norm_num [pushJsx, windowStartJsx, initialState, List.filter]
  · have h := (running_average_characterization 5
      { initialState with averageDB := 9 } 1 5).2.2.2
      (by norm_num [push001, initialState, List.filter])
    exact h

end DbGraph

namespace DbGraph

/-- `soundLevelToPercentage` never returns a negative percentage. -/
lemma soundLevelToPercentage_nonneg (x : ℚ) : 0 ≤ soundLevelToPercentage x := by
  unfold soundLevelToPercentage jsRound
  split_ifs with hx
  · exact le_refl 0
  · refine Int.le_floor.mpr ?_
    push_cast
    have h0 : (0:ℚ) ≤ min 100 (max 0 (x / 80 * 100)) :=
      le_min (by norm_num) (le_max_left _ _)
    linarith

/-- `soundLevelToPercentage` never exceeds `100`. -/
lemma soundLevelToPercentage_le_100 (x : ℚ) : soundLevelToPercentage x ≤ 100 := by
  unfold soundLevelToPercentage jsRound
  split_ifs with hx
  · norm_num
  · have h1 : min 100 (max 0 (x / 80 * 100)) ≤ 100 := min_le_left _ _
    calc ⌊min 100 (max 0 (x / 80 * 100)) + 1/2⌋ ≤ ⌊(100 : ℚ) + 1/2⌋ :=
          Int.floor_le_floor (by linarith)
      _ = 100 := by norm_num [Int.floor_eq_iff]

/-- C4 counterexample: `part_001`'s normalization has no upper clamp —
`processAudioData` on an amplitude of `10^5` produces display level `150`,
strictly above the `100` ceiling of the display scale (and above any fixed
`maxDisplay`: the function is unbounded). -/
theorem normalize_bounded_cex : (100 : ℝ) < normalize001 100000 := by
  have h5 : Real.logb 10 (100000 : ℝ) = 5 := by
    rw [show (100000 : ℝ) = (10 : ℝ) ^ (5:ℕ) by norm_num, Real.logb_pow,
      Real.logb_self_eq_one (by norm_num)]
    norm_num
  unfold normalize001
  rw [if_neg (by norm_num), h5, show (20 : ℝ) * 5 + 100 - 50 = 150 by norm_num]
  exact lt_max_of_lt_right (by norm_num)

/-- C4 amended: on the reachable domain (an RMS amplitude is nonnegative),
each normalization is monotonically non-decreasing; the `DbGraph.jsx`
conversion and `App.js`'s `soundLevelToPercentage` are moreover clamped to
`[0, 100]`, but `part_001`'s conversion is only clamped below at `0` — it
has no upper bound (see `normalize_bounded_cex`). -/
theorem normalize_monotone_bounds :
    (∀ x y : ℝ, 0 ≤ x → x ≤ y → normalizeJsx x ≤ normalizeJsx y) ∧
    (∀ x : ℝ, 0 ≤ normalizeJsx x ∧ normalizeJsx x ≤ 100) ∧
    (∀ x y : ℚ, x ≤ y → soundLevelToPercentage x ≤ soundLevelToPercentage y) ∧
    (∀ x : ℚ, 0 ≤ soundLevelToPercentage x ∧ soundLevelToPercentage x ≤ 100) ∧
    (∀ x y : ℝ, 0 ≤ x → x ≤ y → normalize001 x ≤ normalize001 y) ∧
    (∀ x : ℝ, 0 ≤ normalize001 x) := by
  refine ⟨?_, ?_, ?_, ?_, ?_, ?_⟩
  · intro x y _hx hxy
    unfold normalizeJsx
    rcases le_or_lt x 0 with h0 | h0
    · rw [if_pos h0]
      split_ifs with h1
      · exact le_refl 0
      · exact le_max_left _ _
    · rw [if_neg (not_le.mpr h0), if_neg (not_le.mpr (lt_of_lt_of_le h0 hxy))]
      have hlog : Real.logb 10 (x / 32767) ≤ Real.logb 10 (y / 32767) :=
        Real.logb_le_logb_of_le (by norm_num) (by positivity) (by gcongr)
      exact max_le_max le_rfl (min_le_min le_rfl (by linarith))
  · intro x
    unfold normalizeJsx
    split_ifs
    · norm_num
    · exact ⟨le_max_left _ _, max_le (by norm_num) (min_le_left _ _)⟩
  · intro x y h
    unfold soundLevelToPercentage jsRound
    split_ifs with hx hy hy
    · exact le_refl 0
    · refine Int.le_floor.mpr ?_
      push_cast
      have h0 : (0:ℚ) ≤ min 100 (max 0 (y / 80 * 100)) :=
        le_min (by norm_num) (le_max_left _ _)
      linarith
    · exact absurd (le_trans h hy) hx
    · exact Int.floor_le_floor (by
        have : min 100 (max 0 (x / 80 * 100)) ≤ min 100 (max 0 (y / 80 * 100)) :=
          min_le_min le_rfl (max_le_max le_rfl (by linarith))
        linarith)
  · exact fun x => ⟨soundLevelToPercentage_nonneg x, soundLevelToPercentage_le_100 x⟩
  · intro x y hx h
    unfold normalize001
    rcases eq_or_lt_of_le hx with h0 | h0
    · rw [← h0, if_pos rfl]
      have hl : Real.logb 10 (1/10000 : ℝ) = -4 := by
        rw [show (1/10000 : ℝ) = ((10 : ℝ) ^ (4:ℕ))⁻¹ by norm_num, Real.logb_inv,
          Real.logb_pow, Real.logb_self_eq_one (by norm_num)]
        norm_num
      rw [hl, show max 0 (20 * (-4 : ℝ) + 100 - 50) = 0 from max_eq_left (by norm_num)]
      exact le_max_left _ _
    · have hx0 : x ≠ 0 := ne_of_gt h0
      have hy0 : y ≠ 0 := ne_of_gt (lt_of_lt_of_le h0 h)
      rw [if_neg hx0, if_neg hy0]
      have hlog := Real.logb_le_logb_of_le (b := 10) (by norm_num) h0 h
      exact max_le_max le_rfl (by linarith)
  · exact fun x => le_max_left _ _

/-- Witness for `normalize_monotone_bounds`, instantiated at concrete
inputs. -/
theorem normalize_monotone_bounds_witness :
    normalizeJsx 1 ≤ normalizeJsx 2 ∧
    (0 ≤ normalizeJsx 7 ∧ normalizeJsx 7 ≤ 100) ∧
    soundLevelToPercentage 40 ≤ soundLevelToPercentage 80 ∧
    normalize001 1 ≤ normalize001 2 :=
  ⟨normalize_monotone_bounds.1 1 2 (by norm_num) (by norm_num),
   normalize_monotone_bounds.2.1 7,
   normalize_monotone_bounds.2.2.1 40 80 (by norm_num),
   normalize_monotone_bounds.2.2.2.2.1 1 2 (by norm_num) (by norm_num)⟩

end DbGraph

namespace DbGraph

/-- The common shape of all three window updaters: append the new point,
then keep exactly the points at or after the cutoff `c t` computed from
the new point's time `t`. -/
def slideWindow (c : ℚ → ℚ) (l : List Sample) (p : Sample) : List Sample :=
  (l ++ [p]).filter fun q => decide (c p.x ≤ q.x)

/-- Fold a trace of samples through `slideWindow`. -/
def slideRun (c : ℚ → ℚ) (l : List Sample) (trace : List Sample) : List Sample :=
  trace.foldl (slideWindow c) l

lemma slideRun_append (c : ℚ → ℚ) (l : List Sample) (t₁ t₂ : List Sample) :
    slideRun c l (t₁ ++ t₂) = slideRun c (slideRun c l t₁) t₂ :=
  List.foldl_append _ _ _ _

/-- After folding a time-sorted trace whose cutoffs never outrun their own
sample (`c p.x ≤ p.x`) through a monotone-cutoff sliding window, the
retained window is exactly the trace filtered at the last sample's
cutoff. -/
lemma slideRun_eq_filter (c : ℚ → ℚ) (hmono : ∀ a b : ℚ, a ≤ b → c a ≤ c b)
    (pre : List Sample) :
    ∀ (lastS : Sample),
      (pre ++ [lastS]).Pairwise (fun a b => a.x < b.x) →
      (∀ p ∈ pre ++ [lastS], c p.x ≤ p.x) →
      slideRun c [] (pre ++ [lastS])
        = (pre ++ [lastS]).filter fun p => decide (c lastS.x ≤ p.x) := by
  induction pre using List.reverseRecOn with
  | nil =>
    intro lastS _hs _hk
    rfl
  | append_singleton l m ih =>
    intro lastS hs hk
    have hs' : (l ++ [m]).Pairwise (fun a b => a.x < b.x) := (List.pairwise_append.mp hs).1
    have hk' : ∀ p ∈ l ++ [m], c p.x ≤ p.x := fun p hp => hk p (List.mem_append_left _ hp)
    have hml : m.x < lastS.x :=
      (List.pairwise_append.mp hs).2.2 m
        (List.mem_append_right _ (List.mem_singleton_self m)) lastS (List.mem_singleton_self _)
    rw [slideRun_append, ih m hs' hk']
    show slideWindow c _ lastS = _
    unfold slideWindow
    rw [List.filter_append (List.filter _ (l ++ [m])) [lastS], List.filter_filter]
    have h1 : ∀ a ∈ l ++ [m],
        (decide (c lastS.x ≤ a.x) && decide (c m.x ≤ a.x)) = decide (c lastS.x ≤ a.x) := by
      intro a _ha
      by_cases hca : c lastS.x ≤ a.x
      · have hma : c m.x ≤ a.x := le_trans (hmono _ _ (le_of_lt hml)) hca
        simp [hca, hma]
      · simp [hca]
    rw [List.filter_congr h1, ← List.filter_append]

lemma runPushesJsx_waveformData (d : ℚ) (trace : List Sample) :
    ∀ s : GraphState,
      (runPushesJsx d s trace).waveformData = slideRun (windowStartJsx d) s.waveformData trace := by
  induction trace with
  | nil => intro s; rfl
  | cons p tr ih =>
    intro s
    show (runPushesJsx d (pushJsx d s p.x p.y) tr).waveformData = _
    rw [ih]
    rfl

lemma runPushes001_waveformData (d : ℚ) (trace : List Sample) :
    ∀ s : GraphState,
      (runPushes001 d s trace).waveformData = slideRun (fun t => t - d) s.waveformData trace := by
  induction trace with
  | nil => intro s; rfl
  | cons p tr ih =>
    intro s
    show (runPushes001 d (push001 d s p.x p.y) tr).waveformData = _
    rw [ih]
    rfl

lemma runPushes002_eq_slideRun (d : ℚ) (trace : List Sample) (l : List Sample) :
    runPushes002 d l trace = slideRun (fun t => max 0 (t - d)) l trace :=
  rfl

/-- C2: for every window duration `d > 0` and every trace of samples with
strictly increasing nonnegative times, after each push (i.e. after folding
any such trace) the retained window of each of the three variants —
`DbGraph.jsx`, `part_001` and `part_002` — is exactly the set of pushed
samples whose time is `≥` the last pushed time minus `d` (inclusive
boundary).  (Times are elapsed seconds since session start, hence
nonnegative in every reachable execution; the `DbGraph.jsx`/`part_002`
cutoff is additionally clamped at `0`, which is invisible on nonnegative
times.) -/
theorem window_retains_exactly_recent (d : ℚ) (pre : List Sample) (lastS : Sample)
    (hd : 0 < d)
    (hsorted : (pre ++ [lastS]).Pairwise fun a b => a.x < b.x)
    (hnn : ∀ p ∈ pre ++ [lastS], 0 ≤ p.x) :
    (runPushesJsx d initialState (pre ++ [lastS])).waveformData
        = (pre ++ [lastS]).filter (fun p => decide (lastS.x - d ≤ p.x)) ∧
    (runPushes001 d initialState (pre ++ [lastS])).waveformData
        = (pre ++ [lastS]).filter (fun p => decide (lastS.x - d ≤ p.x)) ∧
    runPushes002 d [] (pre ++ [lastS])
        = (pre ++ [lastS]).filter (fun p => decide (lastS.x - d ≤ p.x)) := by
  have hd0 : (if d = 0 then (30:ℚ) else d) = d := if_neg (ne_of_gt hd)
  have hcongr : ∀ p ∈ pre ++ [lastS],
      decide (max 0 (lastS.x - d) ≤ p.x) = decide (lastS.x - d ≤ p.x) := by
    intro p hp
    rw [decide_eq_decide]
    exact ⟨fun h => le_trans (le_max_right _ _) h, fun h => max_le (hnn p hp) h⟩
  have hmono2 : ∀ a b : ℚ, a ≤ b → max 0 (a - d) ≤ max 0 (b - d) :=
    fun a b h => max_le_max le_rfl (by linarith)
  have hkeep2 : ∀ p ∈ pre ++ [lastS], max 0 (p.x - d) ≤ p.x :=
    fun p hp => max_le (hnn p hp) (by linarith)
  have hJ : (runPushesJsx d initialState (pre ++ [lastS])).waveformData
      = (pre ++ [lastS]).filter (fun p => decide (lastS.x - d ≤ p.x)) := by
    rw [runPushesJsx_waveformData]
    show slideRun (windowStartJsx d) [] _ = _
    have hmono : ∀ a b : ℚ, a ≤ b → windowStartJsx d a ≤ windowStartJsx d b := by
      intro a b h
      unfold windowStartJsx
      exact max_le_max le_rfl (by linarith)
    have hkeep : ∀ p ∈ pre ++ [lastS], windowStartJsx d p.x ≤ p.x := by
      intro p hp
      unfold windowStartJsx
      rw [hd0]
      exact hkeep2 p hp
    rw [slideRun_eq_filter (windowStartJsx d) hmono pre lastS hsorted hkeep]
    refine List.filter_congr fun p hp => ?_
    show decide (windowStartJsx d lastS.x ≤ p.x) = _
    unfold windowStartJsx
    rw [hd0]
    exact hcongr p hp
  have h1 : (runPushes001 d initialState (pre ++ [lastS])).waveformData
      = (pre ++ [lastS]).filter (fun p => decide (lastS.x - d ≤ p.x)) := by
    rw [runPushes001_waveformData]
    exact slideRun_eq_filter (fun t => t - d) (fun a b h => by simp; linarith) pre lastS
      hsorted (fun p _hp => by simp; linarith)
  have h2 : runPushes002 d [] (pre ++ [lastS])
      = (pre ++ [lastS]).filter (fun p => decide (lastS.x - d ≤ p.x)) := by
    rw [runPushes002_eq_slideRun]
    rw [slideRun_eq_filter (fun t => max 0 (t - d)) hmono2 pre lastS hsorted hkeep2]
    exact List.filter_congr hcongr
  exact ⟨hJ, h1, h2⟩

/-- Witness for `window_retains_exactly_recent`: the spec's own scenario
(window 5 s; samples at times 0, 0.5, 1, 6).  After the push at `t = 6`
the window holds exactly the samples with time `≥ 6 - 5 = 1`: the one at
`t = 1` (inclusive boundary) and the one at `t = 6`. -/
theorem window_retains_exactly_recent_witness :
    (runPushesJsx 5 initialState [⟨0, 50⟩, ⟨1/2, 60⟩, ⟨1, 5⟩, ⟨6, 70⟩]).waveformData
        = [⟨1, 5⟩, ⟨6, 70⟩] ∧
    runPushes002 5 [] [⟨0, 50⟩, ⟨1/2, 60⟩, ⟨1, 5⟩, ⟨6, 70⟩] = [⟨1, 5⟩, ⟨6, 70⟩] := by
  have h := window_retains_exactly_recent 5 [⟨0, 50⟩, ⟨1/2, 60⟩, ⟨1, 5⟩] ⟨6, 70⟩
    (by norm_num)
    (by norm_num [List.pairwise_cons])
    (by norm_num [List.mem_cons])
  constructor
  · rw [show ([⟨0, 50⟩, ⟨1/2, 60⟩, ⟨1, 5⟩, ⟨6, 70⟩] : List Sample)
        = [⟨0, 50⟩, ⟨1/2, 60⟩, ⟨1, 5⟩] ++ [⟨6, 70⟩] from rfl, h.1]
    norm_num [List.filter]
  · rw [show ([⟨0, 50⟩, ⟨1/2, 60⟩, ⟨1, 5⟩, ⟨6, 70⟩] : List Sample)
        = [⟨0, 50⟩, ⟨1/2, 60⟩, ⟨1, 5⟩] ++ [⟨6, 70⟩] from rfl, h.2.2]
    norm_num [List.filter]

end DbGraph

namespace DbGraph

lemma runFrames_concat (init : List ℚ) (f : ℚ) :
    runFrames (init ++ [f]) = onNewFrame (runFrames init) f :=
  List.foldl_append _ _ _ _

lemma tail_append_singleton {A : List ℤ} (p : ℤ) (h : A ≠ []) :
    (A ++ [p]).tail = A.tail ++ [p] := by
  cases A with
  | nil => exact absurd rfl h
  | cons a t => rfl

lemma onNewFrame_decibelHistory (st : MeterState) (f : ℚ) :
    (onNewFrame st f).decibelHistory
      = if 50 < (st.decibelHistory ++ [soundLevelToPercentage f]).length
        then (st.decibelHistory ++ [soundLevelToPercentage f]).tail
        else st.decibelHistory ++ [soundLevelToPercentage f] := rfl

lemma onNewFrame_averageDecibels (st : MeterState) (f : ℚ) :
    (onNewFrame st f).averageDecibels
      = jsRound (((onNewFrame st f).decibelHistory.sum : ℚ)
          / ((onNewFrame st f).decibelHistory.length : ℚ)) := rfl

/-- After any sequence of frames the retained history is the suffix of the
per-frame percentages that drops all but the 50 most recent. -/
lemma runFrames_history (frames : List ℚ) :
    (runFrames frames).decibelHistory
      = (frames.map soundLevelToPercentage).drop (frames.length - 50) := by
  induction frames using List.reverseRecOn with
  | nil => rfl
  | append_singleton init f ih =>
    rw [runFrames_concat, onNewFrame_decibelHistory, ih]
    simp only [List.map_append, List.map_singleton, List.length_append, List.length_singleton,
      List.length_drop, List.length_map]
    by_cases hcase : init.length < 50
    · rw [if_neg (by omega)]
      have h1 : init.length - 50 = 0 := by omega
      have h2 : init.length + 1 - 50 = 0 := by omega
      rw [h1, h2, List.drop_zero, List.drop_zero]
    · rw [if_pos (by omega)]
      have h50 : ((init.map soundLevelToPercentage).drop (init.length - 50)).length = 50 := by
        rw [List.length_drop, List.length_map]; omega
      rw [tail_append_singleton _ (by intro hnil; rw [hnil] at h50; simp at h50)]
      rw [List.tail_drop]
      rw [List.drop_append_of_le_length (by rw [List.length_map]; omega)]
      congr 2
      omega

/-- `jsRound` maps `[0, 100]` into `[0, 100]`. -/
lemma jsRound_bounds {q : ℚ} (h0 : 0 ≤ q) (h1 : q ≤ 100) :
    0 ≤ jsRound q ∧ jsRound q ≤ 100 := by
  constructor
  · exact Int.le_floor.mpr (by push_cast; linarith)
  · calc ⌊q + 1/2⌋ ≤ ⌊(100:ℚ) + 1/2⌋ := Int.floor_le_floor (by linarith)
      _ = 100 := by norm_num [Int.floor_eq_iff]

/-- C10: after every incoming sound-level frame, the `App.js` meter's
`decibelHistory` holds exactly the percentages of the most recent
`min(n, 50)` frames (older readings evicted from the front), and
`averageDecibels` is the rounded arithmetic mean of exactly those retained
readings, hence always lies in `[0, 100]`. -/
theorem meter_history_average_invariant (frames : List ℚ) (hne : frames ≠ []) :
    (runFrames frames).decibelHistory
        = (frames.map soundLevelToPercentage).drop (frames.length - 50) ∧
    (runFrames frames).decibelHistory.length ≤ 50 ∧
    (runFrames frames).averageDecibels
        = jsRound (((runFrames frames).decibelHistory.sum : ℚ)
            / ((runFrames frames).decibelHistory.length : ℚ)) ∧
    0 ≤ (runFrames frames).averageDecibels ∧
    (runFrames frames).averageDecibels ≤ 100 := by
  obtain ⟨init, f, rfl⟩ := (List.eq_nil_or_concat' frames).resolve_left hne
  have hhist := runFrames_history (init ++ [f])
  have hlen : (runFrames (init ++ [f])).decibelHistory.length
      = (init.length + 1) - (init.length + 1 - 50) := by
    rw [hhist, List.length_drop, List.length_map, List.length_append, List.length_singleton]
  have hlenpos : 0 < (runFrames (init ++ [f])).decibelHistory.length := by
    rw [hlen]; omega
  have havg : (runFrames (init ++ [f])).averageDecibels
      = jsRound (((runFrames (init ++ [f])).decibelHistory.sum : ℚ)
          / ((runFrames (init ++ [f])).decibelHistory.length : ℚ)) := by
    rw [runFrames_concat]
    exact onNewFrame_averageDecibels _ f
  have hmem : ∀ z ∈ (runFrames (init ++ [f])).decibelHistory, 0 ≤ z ∧ z ≤ 100 := by
    intro z hz
    rw [hhist] at hz
    have hz' := List.mem_of_mem_drop hz
    obtain ⟨q, _, rfl⟩ := List.mem_map.mp hz'
    exact ⟨soundLevelToPercentage_nonneg q, soundLevelToPercentage_le_100 q⟩
  have hsum0 : (0:ℤ) ≤ (runFrames (init ++ [f])).decibelHistory.sum :=
    List.sum_nonneg fun z hz => (hmem z hz).1
  have hsum100 : (runFrames (init ++ [f])).decibelHistory.sum
      ≤ ((runFrames (init ++ [f])).decibelHistory.length : ℤ) * 100 := by
    have := List.sum_le_card_nsmul (runFrames (init ++ [f])).decibelHistory 100
      fun z hz => (hmem z hz).2
    simpa [nsmul_eq_mul] using this
  have hq0 : (0:ℚ) ≤ ((runFrames (init ++ [f])).decibelHistory.sum : ℚ)
      / ((runFrames (init ++ [f])).decibelHistory.length : ℚ) := by
    apply div_nonneg
    · exact_mod_cast hsum0
    · positivity
  have hq100 : ((runFrames (init ++ [f])).decibelHistory.sum : ℚ)
      / ((runFrames (init ++ [f])).decibelHistory.length : ℚ) ≤ 100 := by
    rw [div_le_iff₀ (by exact_mod_cast hlenpos)]
    have h : ((runFrames (init ++ [f])).decibelHistory.sum : ℚ)
        ≤ ((runFrames (init ++ [f])).decibelHistory.length : ℚ) * 100 := by
      exact_mod_cast hsum100
    linarith
  refine ⟨hhist, by rw [hlen]; omega, havg, ?_, ?_⟩
  · rw [havg]; exact (jsRound_bounds hq0 hq100).1
  · rw [havg]; exact (jsRound_bounds hq0 hq100).2

/-- Witness for `meter_history_average_invariant`: two frames with values
40 and 80 produce the history `[50, 100]` and the rounded average `75`,
which the theorem's bounds confirm lies in `[0, 100]`. -/
theorem meter_history_average_invariant_witness :
    (runFrames [40, 80]).decibelHistory = [50, 100] ∧
    (runFrames [40, 80]).averageDecibels = 75 ∧
    0 ≤ (runFrames [40, 80]).averageDecibels ∧
    (runFrames [40, 80]).averageDecibels ≤ 100 := by
  have h40 : soundLevelToPercentage 40 = 50 := by
    norm_num [soundLevelToPercentage, jsRound, Int.floor_eq_iff]
  have h80 : soundLevelToPercentage 80 = 100 := by
    norm_num [soundLevelToPercentage, jsRound, Int.floor_eq_iff]
  refine ⟨?_, ?_,
    (meter_history_average_invariant [40, 80] (by simp)).2.2.2.1,
    (meter_history_average_invariant [40, 80] (by simp)).2.2.2.2⟩
  · show (onNewFrame (onNewFrame ⟨[], 0⟩ 40) 80).decibelHistory = [50, 100]
    rw [onNewFrame_decibelHistory, onNewFrame_decibelHistory]
    norm_num [h40, h80, onNewFrame]
  · show (onNewFrame (onNewFrame ⟨[], 0⟩ 40) 80).averageDecibels = 75
    norm_num [onNewFrame, h40, h80, jsRound, Int.floor_eq_iff]

end DbGraph
